import Mathlib

set_option maxHeartbeats 1000000
set_option maxRecDepth 100000

/-!
Shallow embedding of the `troubleshootd` host-diagnostic service, used to
check its natural-language specification against the code.

Conventions: Go strings are modelled at the character level (`List Char` for
the version parser, `String` elsewhere); Go `byte`/`uint64`/`types.Currency`
arithmetic is modelled with `Nat` (exact at the magnitudes the code
manipulates); functions returning `(T, error)` are modelled with
`Option`/`Except`; network effects are supplied by explicit
oracle/environment records so each code path is a pure function of its
inputs. Every definition is written to be executable by the kernel
(structural recursion only), so concrete runs evaluate by `rfl`/`decide`.
-/

/-! ## Version comparator (`troubleshoot/semver.go`) -/

/-- Decimal digit list of a byte-range value, as the Go `%d` verb renders the
`[3]byte` version components (exact for every value below 1000, which covers
the byte range stored by the source). -/
def toDecimal (n : Nat) : List Char :=
  if n < 10 then [Char.ofNat (48 + n)]
  else if n < 100 then [Char.ofNat (48 + n / 10), Char.ofNat (48 + n % 10)]
  else [Char.ofNat (48 + n / 100), Char.ofNat (48 + n / 10 % 10), Char.ofNat (48 + n % 10)]

/-- Embeds the Go struct `SemVer`: three numeric components stored as bytes in
the source (parsing only ever produces values below 256, see `parseUint8`) and
a free-text pre-release suffix. -/
structure SemVer where
  major : Nat
  minor : Nat
  patch : Nat
  suffix : List Char
  deriving DecidableEq, Repr

/-- Embeds `SemVer.Cmp`: the Go `switch` returning component differences as an
`int`, then the suffix-presence tie-break (+1 when only `b` has a suffix, -1
when only `v` has one), else 0. -/
def SemVer.Cmp (v b : SemVer) : Int :=
  if v.major ≠ b.major then (v.major : Int) - (b.major : Int)
  else if v.minor ≠ b.minor then (v.minor : Int) - (b.minor : Int)
  else if v.patch ≠ b.patch then (v.patch : Int) - (b.patch : Int)
  else if v.suffix = [] ∧ b.suffix ≠ [] then 1
  else if v.suffix ≠ [] ∧ b.suffix = [] then -1
  else 0

/-- Embeds `SemVer.String`: `vMAJOR.MINOR.PATCH`, with `-SUFFIX` appended only
when the suffix is non-empty. -/
def SemVer.toText (v : SemVer) : List Char :=
  if v.suffix ≠ [] then
    'v' :: toDecimal v.major ++ '.' :: toDecimal v.minor ++ '.' :: toDecimal v.patch ++ '-' :: v.suffix
  else
    'v' :: toDecimal v.major ++ '.' :: toDecimal v.minor ++ '.' :: toDecimal v.patch

/-- Decimal value of a digit list, the number `parseUint8` range-checks
(`strconv.ParseUint` accumulates the same value). -/
def decValue (l : List Char) : Nat :=
  l.foldl (fun a c => a * 10 + (c.toNat - 48)) 0

/-- Embeds `strconv.ParseUint(part, 10, 8)` as used by `SemVer.UnmarshalText`:
non-empty, digits only, and the value must fit 8 bits; any other input is an
error (`none`). The value is an unbounded `Nat`, so an oversized component is
rejected exactly, never wrapped modulo 256. -/
def parseUint8 (l : List Char) : Option Nat :=
  if l = [] then none
  else if l.all Char.isDigit then
    if decValue l < 256 then some (decValue l) else none
  else none

/-- Splits at the first dash, modelling `strings.Index(version, "-")` and the
two slices `UnmarshalText` takes around it; `none` when no dash occurs. -/
def breakDash : List Char → List Char × Option (List Char)
  | [] => ([], none)
  | c :: rest =>
    if c = '-' then ([], some rest)
    else
      let p := breakDash rest
      (c :: p.1, p.2)

/-- Splits on every dot, modelling `strings.Split(version, ".")`. -/
def splitDots : List Char → List (List Char)
  | [] => [[]]
  | c :: rest =>
    if c = '.' then [] :: splitDots rest
    else
      match splitDots rest with
      | [] => [[c]]
      | g :: gs => (c :: g) :: gs

/-- Embeds `SemVer.UnmarshalText` as a pure parser; `none` is the Go error
case: empty input, missing `v` marker, a dot-split that does not give exactly
three parts, or any component failing `parseUint8`. The suffix is everything
after the first dash (possibly empty). -/
def SemVer.unmarshalText (buf : List Char) : Option SemVer :=
  match buf with
  | [] => none
  | c0 :: rest =>
    if c0 ≠ 'v' then none
    else
      match splitDots (breakDash rest).1 with
      | [p1, p2, p3] =>
        match parseUint8 p1, parseUint8 p2, parseUint8 p3 with
        | some a, some b, some c => some ⟨a, b, c, (breakDash rest).2.getD []⟩
        | _, _, _ => none
      | _ => none

/-- Splits on every whitespace character, the char-level analogue of
`splitDots` used to model `strings.Fields`. -/
def splitWhite : List Char → List (List Char)
  | [] => [[]]
  | c :: rest =>
    if c.isWhitespace then [] :: splitWhite rest
    else
      match splitWhite rest with
      | [] => [[c]]
      | g :: gs => (c :: g) :: gs

/-- Whitespace-separated fields of a string, modelling `strings.Fields`
(split around whitespace runs, dropping empty fields). -/
def goFields (s : String) : List String :=
  ((splitWhite s.toList).filter (fun p => p ≠ [])).map (fun l => String.mk l)

/-- Embeds `parseReleaseString` (`troubleshoot/rhp4.go`): when the string has
more than one whitespace-separated field, the second field is parsed (dropping
an application-name token such as `hostd`), otherwise the whole string is. -/
def parseReleaseString (s : String) : Option SemVer :=
  let parts := goFields s
  let versionStr := if parts.length > 1 then parts.getD 1 s else s
  SemVer.unmarshalText versionStr.toList

/-- Suffix-presence rank of the spec's tie-break: a release (no suffix)
outranks any pre-release. Stated from the spec's words for claim C3. -/
def suffixRank (v : SemVer) : Nat :=
  if v.suffix = [] then 1 else 0

/-- Component-wise ordering the spec describes for claim C3: numeric
lexicographic on (major, minor, patch), then the suffix-presence tie-break.
Stated from the spec's words, to be compared with `SemVer.Cmp`. -/
def versionKeyLt (a b : SemVer) : Prop :=
  a.major < b.major ∨ (a.major = b.major ∧
    (a.minor < b.minor ∨ (a.minor = b.minor ∧
      (a.patch < b.patch ∨ (a.patch = b.patch ∧ suffixRank a < suffixRank b)))))

instance (a b : SemVer) : Decidable (versionKeyLt a b) := by
  unfold versionKeyLt
  infer_instance

/-! ## DNS resolver (`internal/dns/dns.go`) -/

/-- Answer record of a DNS response: the source handles A, AAAA and CNAME
records and fails on any other type. -/
inductive DNSRecord where
  | A (ip : String)
  | AAAA (ip : String)
  | CNAME (target : String)
  | other
  deriving DecidableEq, Repr

/-- Query type the source asks for (`dns.TypeA`, `dns.TypeAAAA`,
`dns.TypeCNAME`). -/
inductive RType where
  | A
  | AAAA
  | CNAME
  deriving DecidableEq, Repr

/-- Environment oracle standing for the network: what the DNS exchange
returns for each (hostname, record type) query, `.error` being a transport
failure of the exchange itself. -/
structure DnsEnv where
  query : String → RType → Except String (List DNSRecord)

/-- Errors of the DNS component. `queryWrap` and `cnameWrap` model the
`fmt.Errorf` wrappings with a `%w` verb (`failed to query X records` and
`failed to resolve CNAME`); `maxDepth` is the `maximum CNAME resolution depth
reached` error; `notFound` is the distinguished `ErrNotFound` value. -/
inductive DNSError where
  | exchange (msg : String)
  | unsupportedRecord
  | queryWrap (rtype : RType) (e : DNSError)
  | maxDepth (maxDepth : Nat)
  | cnameWrap (target : String) (e : DNSError)
  | notFound
  deriving DecidableEq, Repr

/-- Models `errors.Is(err, dns.ErrNotFound)`: true iff the `%w`-wrapped chain
bottoms out at the distinguished `ErrNotFound` value. -/
def DNSError.isNotFound : DNSError → Bool
  | .notFound => true
  | .queryWrap _ e => e.isNotFound
  | .cnameWrap _ e => e.isNotFound
  | _ => false

/-- True when the error's message chain contains the `maximum CNAME
resolution depth reached` text (a `%w`-wrapped message includes the wrapped
error's text). -/
def DNSError.mentionsMaxDepth : DNSError → Bool
  | .maxDepth _ => true
  | .queryWrap _ e => e.mentionsMaxDepth
  | .cnameWrap _ e => e.mentionsMaxDepth
  | _ => false

/-- Maps each answer record to the string `queryRecord` extracts (A/AAAA
value or CNAME target, in answer order), failing at the first unsupported
record type, as the source's `switch` does. -/
def recordStrings : List DNSRecord → Except DNSError (List String)
  | [] => .ok []
  | .A ip :: rest => (recordStrings rest).map (fun l => ip :: l)
  | .AAAA ip :: rest => (recordStrings rest).map (fun l => ip :: l)
  | .CNAME t :: rest => (recordStrings rest).map (fun l => t :: l)
  | .other :: _ => .error .unsupportedRecord

/-- Embeds `queryRecord`: perform the exchange through the environment and
collect the answer strings. -/
def queryRecord (env : DnsEnv) (hostname : String) (rtype : RType) :
    Except DNSError (List String) :=
  match env.query hostname rtype with
  | .error msg => .error (.exchange msg)
  | .ok answers => recordStrings answers

/-- Models the interface of the stdlib `net.ParseIP` (external to this
repository): accepts a dotted-quad IPv4 literal or a colon-marked IPv6-style
literal and rejects everything else. The claims only constrain hostnames on
which it returns `none`, so this interface-level model suffices. -/
def parseIP (s : String) : Option String :=
  if ((splitDots s.toList).length = 4 ∧
      (splitDots s.toList).all (fun p =>
        (!p.isEmpty) && p.all Char.isDigit && decide (decValue p ≤ 255)) = true) then
    some s
  else if s.toList.contains ':' then some s
  else none

/-- Embeds `resolve` (dns.go): query A, AAAA and CNAME records, keep the
parseable IPs, and recursively resolve each CNAME target in answer order,
stopping at the first failing target. The Go function counts `depth` upward
and fails when `depth > maxDepth`; here the remaining budget
`gas = maxDepth + 1 - depth` counts downward (`gas = 0` exactly when
`depth > maxDepth`), which makes the recursion structural and the bounded
termination of the source explicit. -/
def resolveAux (env : DnsEnv) (maxDepth : Nat) : Nat → String → Except DNSError (List String)
  | 0, _ => .error (.maxDepth maxDepth)
  | gas + 1, hostname =>
    match queryRecord env hostname .A with
    | .error e => .error (.queryWrap .A e)
    | .ok a =>
      match queryRecord env hostname .AAAA with
      | .error e => .error (.queryWrap .AAAA e)
      | .ok aaaa =>
        match queryRecord env hostname .CNAME with
        | .error e => .error (.queryWrap .CNAME e)
        | .ok cname =>
          cname.foldlM (fun acc r =>
            match resolveAux env maxDepth gas r with
            | .error e => .error (.cnameWrap r e)
            | .ok ips => .ok (acc ++ ips))
            (a.filterMap parseIP ++ aaaa.filterMap parseIP)

/-- Embeds the `resolve(ctx, server, hostname, depth, maxDepth)` signature in
terms of the gas-counting core. -/
def resolve (env : DnsEnv) (hostname : String) (depth maxDepth : Nat) :
    Except DNSError (List String) :=
  resolveAux env maxDepth (maxDepth + 1 - depth) hostname

/-- Embeds `LookupIP`: an IP-literal hostname is returned directly with no
query; otherwise `resolve(..., 0, 3)` runs and an empty record union becomes
the distinguished `ErrNotFound`. -/
def LookupIP (env : DnsEnv) (hostname : String) : Except DNSError (List String) :=
  match parseIP hostname with
  | some ip => .ok [ip]
  | none =>
    match resolve env hostname 0 3 with
    | .error e => .error e
    | .ok records => if records = [] then .error .notFound else .ok records

/-- True when a response contains only record types the source supports. -/
def supportedRecords (l : List DNSRecord) : Bool :=
  l.all (fun r => r != DNSRecord.other)

/-- String a supported record maps to in `queryRecord`. -/
def recString : DNSRecord → String
  | .A ip => ip
  | .AAAA ip => ip
  | .CNAME t => t
  | .other => ""

/-- A CNAME chain of length `n` starting at `h`: at each hop all three
queries succeed with supported records and the CNAME answer's first record
points at the next hop. -/
def cnameChain (env : DnsEnv) : String → Nat → Prop
  | _, 0 => True
  | h, n + 1 =>
    (∃ a, env.query h .A = .ok a ∧ supportedRecords a = true) ∧
    (∃ b, env.query h .AAAA = .ok b ∧ supportedRecords b = true) ∧
    (∃ t rest, env.query h .CNAME = .ok (.CNAME t :: rest) ∧
      supportedRecords rest = true ∧ cnameChain env t n)

/-- Environment in which host `a` CNAMEs to itself and has no A/AAAA
records: a cyclic CNAME chain of unbounded length. -/
def envLoop : DnsEnv :=
  ⟨fun _ t => match t with
    | RType.CNAME => .ok [DNSRecord.CNAME "a"]
    | _ => .ok []⟩

/-- Environment in which every query succeeds with an empty answer. -/
def envEmpty : DnsEnv := ⟨fun _ _ => .ok []⟩

/-! ## Manager cooldown (`Manager.TestHost`, the mutex-guarded prologue) -/

/-- Host public keys, opaque identities for the cooldown map. -/
abbrev HostKey := Nat

/-- The manager's cooldown map, public key to expiry time in seconds; the Go
zero `time.Time` of an absent key is time 0. -/
structure CooldownMap where
  expiry : HostKey → Int

/-- Cooldown window `TestHost` sets on entry: 15 seconds. -/
def cooldownWindow : Int := 15

/-- Embeds the cooldown check-and-set performed under the lock at the top of
`Manager.TestHost`: if `time.Until(expiry)` is positive the call fails with
that remaining duration and the map is returned untouched (the source writes
nothing on this path); otherwise the expiry is set to `now + 15s` and the
call proceeds (`none` error). -/
def checkCooldown (m : CooldownMap) (now : Int) (pk : HostKey) :
    CooldownMap × Option Int :=
  if m.expiry pk - now > 0 then (m, some (m.expiry pk - now))
  else (⟨fun k => if k = pk then now + cooldownWindow else m.expiry k⟩, none)

/-! ## `Manager.TestHost` RHP4 fan-out loop -/

/-- Protocol tag of a NetAddress (`chain.Protocol` is a string). -/
abbrev Protocol := String

/-- Embeds `chain.NetAddress`: dial address plus protocol tag. -/
structure NetAddress where
  address : String
  protocol : Protocol
  deriving DecidableEq, Repr

/-- What the `TestHost` loop does with a result slot: record an immediate
`duplicate protocol` error without dialing, or launch the probe goroutine
(which dials through `testRHP4`). -/
inductive SlotAction where
  | dupError
  | probe
  deriving DecidableEq, Repr

/-- Embeds the body of the `TestHost` loop over `host.RHP4NetAddresses`.
`seen` plays the `rhp4Protos` map; exactly as in the source, the loop reads
`rhp4Protos[addr.Protocol]` but never stores into the map, so `seen` is
threaded through unchanged. -/
def rhp4SlotLoop (seen : Protocol → Bool) : List NetAddress → List SlotAction
  | [] => []
  | addr :: rest =>
    if seen addr.protocol then SlotAction.dupError :: rhp4SlotLoop seen rest
    else SlotAction.probe :: rhp4SlotLoop seen rest

/-- The slot actions `TestHost` takes for a host's RHP4 address list,
starting from the freshly made empty `rhp4Protos` map. -/
def rhp4SlotActions (addrs : List NetAddress) : List SlotAction :=
  rhp4SlotLoop (fun _ => false) addrs

/-! ## RHP4 probe pipeline (`troubleshoot/rhp4.go`) -/

/-- The 30-day floor on advertised contract duration (144 blocks/day). -/
def minContractDuration : Nat := 144 * 30

/-- Embeds the generic `delta` helper: absolute difference. -/
def delta (a b : Nat) : Nat :=
  if a < b then b - a else a - b

/-- Fields of `rhp4.HostPrices` the pipeline reads (`types.Currency` values
modelled as `Nat`). -/
structure HostPrices where
  contractPrice : Nat
  collateral : Nat
  storagePrice : Nat
  tipHeight : Nat
  deriving DecidableEq, Repr

/-- Fields of `rhp4.HostSettings` the pipeline reads. -/
structure HostSettings where
  acceptingContracts : Bool
  maxCollateral : Nat
  maxContractDuration : Nat
  prices : HostPrices
  release : String
  deriving DecidableEq, Repr

/-- The Go zero value of `rhp4.HostSettings`, which `rhp4.RPCSettings` leaves
behind when it returns an error. -/
def zeroSettings : HostSettings :=
  { acceptingContracts := false, maxCollateral := 0, maxContractDuration := 0,
    prices := { contractPrice := 0, collateral := 0, storagePrice := 0, tipHeight := 0 },
    release := "" }

/-- Embeds the `RHP4Result` struct; durations are abstract tick counts. -/
structure RHP4Result where
  netAddress : NetAddress
  resolvedAddresses : List String
  connected : Bool
  dialTime : Nat
  handshake : Bool
  handshakeTime : Nat
  scanned : Bool
  scanTime : Nat
  settings : Option HostSettings
  errors : List String
  warnings : List String
  deriving DecidableEq, Repr

/-- A zero-valued result slot, as `make([]RHP4Result, n)` produces in
`TestHost`. -/
def emptyRHP4Result : RHP4Result :=
  { netAddress := ⟨"", ""⟩, resolvedAddresses := [], connected := false, dialTime := 0,
    handshake := false, handshakeTime := 0, scanned := false, scanTime := 0,
    settings := none, errors := [], warnings := [] }

/-- Oracle for one probe's network effects: the outcome of the TCP dial, the
siamux upgrade, the QUIC dial, and the settings RPC, plus the wall-clock
durations each stage would measure. -/
structure ProbeWorld where
  dialResult : Except String Unit
  dialTime : Nat
  siamuxResult : Except String Unit
  siamuxTime : Nat
  quicResult : Except String Unit
  quicTime : Nat
  settingsResult : Except String HostSettings
  scanTime : Nat

/-- Substring test modelling `strings.Contains`. -/
def strContains (s pat : String) : Bool :=
  s.toList.tails.any (fun t => pat.toList.isPrefixOf t)

/-- Models the port component returned by the stdlib `net.SplitHostPort`
(text after the last colon; the source discards the error result). -/
def portOf (addr : String) : String :=
  if addr.toList.contains ':' then
    String.mk ((addr.toList.reverse.takeWhile (fun c => c ≠ ':')).reverse)
  else ""

/-- Embeds `res.Warnings = append(res.Warnings, s)`. -/
def addWarning (res : RHP4Result) (s : String) : RHP4Result :=
  { res with warnings := res.warnings ++ [s] }

/-- Embeds `res.Errors = append(res.Errors, s)`. -/
def addError (res : RHP4Result) (s : String) : RHP4Result :=
  { res with errors := res.errors ++ [s] }

/-- Embeds the scan bookkeeping of `testRHP4Transport`: set `ScanTime`, mark
`Scanned`, and store the settings pointer. -/
def markScanned (w : ProbeWorld) (settings : HostSettings) (res : RHP4Result) : RHP4Result :=
  { res with scanTime := w.scanTime, scanned := true, settings := some settings }

/-- Embeds the validation tail of `testRHP4Transport` (rhp4.go): the fixed
battery of heuristic checks run against the settings value in scope. -/
def validateRHP4Settings (settings : HostSettings) (currentVersion : SemVer) (tipHeight : Nat)
    (res : RHP4Result) : RHP4Result :=
  let res := if !settings.acceptingContracts then
      addWarning res "host is not accepting contracts"
    else res
  let res := if settings.maxCollateral = 0 then
      addWarning res "host has no max collateral"
    else res
  let res := if settings.maxContractDuration < minContractDuration then
      addWarning res "host has a max contract duration less than 1 month"
    else res
  let res := if settings.prices.collateral = 0 then
      addWarning res "host has no collateral price"
    else if settings.prices.collateral < settings.prices.storagePrice then
      addWarning res "host collateral price is less than storage price"
    else if settings.prices.storagePrice * 2 > settings.prices.collateral then
      addWarning res "host collateral price is less than double the storage price"
    else res
  let res := if delta settings.prices.tipHeight tipHeight ≥ 3 then
      addError res ("host tip height " ++ toString settings.prices.tipHeight ++
        " is less than the current tip height " ++ toString tipHeight)
    else res
  match parseReleaseString settings.release with
  | none =>
    addWarning res ("host is running an unknown version " ++ settings.release ++
      ", which may not be stable")
  | some release =>
    if release.Cmp currentVersion < 0 then
      addWarning res ("host is running an outdated version " ++ String.mk release.toText ++
        ", latest is " ++ String.mk currentVersion.toText)
    else res

/-- Embeds `testRHP4Transport` (rhp4.go lines 72-114). NOTE the source has no
early return after a failed `rhp4.RPCSettings` call: the error message is
appended and control falls through with the zero-valued `settings`, so the
scan is still marked successful and the validation battery still runs; the
two match arms reproduce exactly that fall-through. -/
def testRHP4Transport (w : ProbeWorld) (currentVersion : SemVer) (tipHeight : Nat)
    (res : RHP4Result) : RHP4Result :=
  match w.settingsResult with
  | .ok settings =>
    validateRHP4Settings settings currentVersion tipHeight (markScanned w settings res)
  | .error e =>
    validateRHP4Settings zeroSettings currentVersion tipHeight
      (markScanned w zeroSettings (addError res ("failed to get settings: " ++ e)))

/-- Embeds `testRHP4SiaMux` (rhp4.go lines 116-141): dial, then upgrade, then
the transport test; each failing stage appends its error and returns, leaving
every later field untouched. -/
def testRHP4SiaMux (w : ProbeWorld) (currentVersion : SemVer) (tipHeight : Nat)
    (res : RHP4Result) : RHP4Result :=
  match w.dialResult with
  | .error e => { res with errors := res.errors ++ [e] }
  | .ok _ =>
    let res := { res with dialTime := w.dialTime, connected := true }
    match w.siamuxResult with
    | .error e => { res with errors := res.errors ++ ["failed to connect to siamux: " ++ e] }
    | .ok _ =>
      let res := { res with handshakeTime := w.siamuxTime, handshake := true }
      testRHP4Transport w currentVersion tipHeight res

/-- Embeds `testRHP4Quic` (rhp4.go lines 143-166): a single `quic.Dial` step
that on success sets only `HandshakeTime`, `Connected` and `Handshake` (the
source comments that a separate dial time is not measured for QUIC and
`DialTime` is never written). -/
def testRHP4Quic (w : ProbeWorld) (currentVersion : SemVer) (tipHeight : Nat)
    (addr : NetAddress) (res : RHP4Result) : RHP4Result :=
  match w.quicResult with
  | .error e =>
    if strContains e "no recent network activity" then
      { res with errors := res.errors ++
        ["failed to connect to quic: check port forwarding and firewall settings for UDP port " ++
          portOf addr.address] }
    else
      { res with errors := res.errors ++ ["failed to connect to quic: " ++ e] }
  | .ok _ =>
    let res := { res with handshakeTime := w.quicTime, connected := true, handshake := true }
    testRHP4Transport w currentVersion tipHeight res

/-! ## Helper lemmas -/

theorem toDecimal_fin : ∀ m : Fin 256,
    toDecimal m.1 ≠ [] ∧ (toDecimal m.1).all Char.isDigit = true ∧
    parseUint8 (toDecimal m.1) = some m.1 := by decide

theorem toDecimal_spec {n : Nat} (h : n < 256) :
    toDecimal n ≠ [] ∧ (toDecimal n).all Char.isDigit = true ∧ parseUint8 (toDecimal n) = some n :=
  toDecimal_fin ⟨n, h⟩

theorem toDecimal_no_dash {n : Nat} (h : n < 256) : '-' ∉ toDecimal n := by
  intro hm
  have hall := (toDecimal_spec h).2.1
  rw [List.all_eq_true] at hall
  exact absurd (hall _ hm) (by decide)

theorem toDecimal_no_dot {n : Nat} (h : n < 256) : '.' ∉ toDecimal n := by
  intro hm
  have hall := (toDecimal_spec h).2.1
  rw [List.all_eq_true] at hall
  exact absurd (hall _ hm) (by decide)

theorem cmp_antisymm (a b : SemVer) : SemVer.Cmp a b = -SemVer.Cmp b a := by
  unfold SemVer.Cmp
  split_ifs <;> first | omega | tauto

theorem cmp_lt_iff (a b : SemVer) : SemVer.Cmp a b < 0 ↔ versionKeyLt a b := by
  unfold SemVer.Cmp versionKeyLt suffixRank
  split_ifs <;> first | omega | tauto

theorem cmp_eq_iff (a b : SemVer) :
    SemVer.Cmp a b = 0 ↔
      (a.major = b.major ∧ a.minor = b.minor ∧ a.patch = b.patch ∧
        suffixRank a = suffixRank b) := by
  unfold SemVer.Cmp suffixRank
  split_ifs <;> first | omega | tauto

theorem keyLt_trans (a b c : SemVer) (h1 : versionKeyLt a b) (h2 : versionKeyLt b c) :
    versionKeyLt a c := by
  unfold versionKeyLt at *
  omega

theorem cmp_trans_lt (a b c : SemVer) (h1 : SemVer.Cmp a b < 0) (h2 : SemVer.Cmp b c < 0) :
    SemVer.Cmp a c < 0 := by
  rw [cmp_lt_iff] at *
  exact keyLt_trans a b c h1 h2

theorem cmp_trans_eq (a b c : SemVer) (h1 : SemVer.Cmp a b = 0) (h2 : SemVer.Cmp b c = 0) :
    SemVer.Cmp a c = 0 := by
  rw [cmp_eq_iff] at *
  omega

theorem breakDash_no_dash {l : List Char} (h : '-' ∉ l) : breakDash l = (l, none) := by
  induction l with
  | nil => rfl
  | cons c rest ih =>
    simp only [List.mem_cons, not_or] at h
    rw [breakDash, if_neg (fun hh => h.1 hh.symm), ih h.2]

theorem breakDash_dash {l : List Char} (s : List Char) (h : '-' ∉ l) :
    breakDash (l ++ '-' :: s) = (l, some s) := by
  induction l with
  | nil => simp [breakDash]
  | cons c rest ih =>
    simp only [List.mem_cons, not_or] at h
    simp only [List.cons_append]
    rw [breakDash, if_neg (fun hh => h.1 hh.symm), ih h.2]

theorem splitDots_no_dot {l : List Char} (h : '.' ∉ l) : splitDots l = [l] := by
  induction l with
  | nil => rfl
  | cons c rest ih =>
    simp only [List.mem_cons, not_or] at h
    rw [splitDots, if_neg (fun hh => h.1 hh.symm), ih h.2]

theorem splitDots_append {l : List Char} (r : List Char) (h : '.' ∉ l) :
    splitDots (l ++ '.' :: r) = l :: splitDots r := by
  induction l with
  | nil => simp [splitDots]
  | cons c rest ih =>
    simp only [List.mem_cons, not_or] at h
    simp only [List.cons_append]
    rw [splitDots, if_neg (fun hh => h.1 hh.symm), ih h.2]

theorem unmarshal_core (a b c : Nat) (sfx : List Char) (h1 : a < 256) (h2 : b < 256)
    (h3 : c < 256) :
    SemVer.unmarshalText ('v' :: (toDecimal a ++ '.' :: (toDecimal b ++ '.' :: (toDecimal c ++
      (if sfx = [] then [] else '-' :: sfx))))) = some ⟨a, b, c, sfx⟩ := by
  have hnd : '-' ∉ toDecimal a ++ '.' :: (toDecimal b ++ '.' :: toDecimal c) := by
    simp only [List.mem_append, List.mem_cons, not_or]
    exact ⟨toDecimal_no_dash h1, by decide, toDecimal_no_dash h2, by decide, toDecimal_no_dash h3⟩
  have hsplit : splitDots (toDecimal a ++ '.' :: (toDecimal b ++ '.' :: toDecimal c)) =
      [toDecimal a, toDecimal b, toDecimal c] := by
    rw [splitDots_append _ (toDecimal_no_dot h1), splitDots_append _ (toDecimal_no_dot h2),
      splitDots_no_dot (toDecimal_no_dot h3)]
  by_cases hs : sfx = []
  · subst hs
    simp only [reduceIte, List.append_nil]
    rw [SemVer.unmarshalText, if_neg (fun hh => hh rfl)]
    rw [breakDash_no_dash hnd]
    simp only [Option.getD_none, hsplit, (toDecimal_spec h1).2.2, (toDecimal_spec h2).2.2,
      (toDecimal_spec h3).2.2]
  · rw [if_neg hs]
    have harr : toDecimal a ++ '.' :: (toDecimal b ++ '.' :: (toDecimal c ++ '-' :: sfx)) =
        (toDecimal a ++ '.' :: (toDecimal b ++ '.' :: toDecimal c)) ++ '-' :: sfx := by
      simp [List.append_assoc]
    rw [SemVer.unmarshalText, if_neg (fun hh => hh rfl)]
    rw [harr, breakDash_dash _ hnd]
    simp only [Option.getD_some, hsplit, (toDecimal_spec h1).2.2, (toDecimal_spec h2).2.2,
      (toDecimal_spec h3).2.2]

theorem unmarshal_toText (v : SemVer) (h1 : v.major < 256) (h2 : v.minor < 256)
    (h3 : v.patch < 256) :
    SemVer.unmarshalText v.toText = some v := by
  obtain ⟨a, b, c, sfx⟩ := v
  have hc := unmarshal_core a b c sfx h1 h2 h3
  by_cases hs : sfx = []
  · subst hs
    simpa [SemVer.toText] using hc
  · rw [if_neg hs] at hc
    rw [SemVer.toText, if_pos hs]
    simpa using hc

theorem parseUint8_lt {l : List Char} {n : Nat} (h : parseUint8 l = some n) : n < 256 := by
  unfold parseUint8 at h
  split_ifs at h with h1 h2 h3 <;> simp_all <;> omega

theorem unmarshalText_bounds {s : List Char} {v : SemVer}
    (h : SemVer.unmarshalText s = some v) :
    v.major < 256 ∧ v.minor < 256 ∧ v.patch < 256 := by
  cases s with
  | nil => exact absurd h (by simp [SemVer.unmarshalText])
  | cons c0 rest =>
    rw [SemVer.unmarshalText] at h
    split_ifs at h with hv
    · split at h
      · split at h
        · rename_i ha hb hc
          injection h with h'
          subst h'
          exact ⟨parseUint8_lt ha, parseUint8_lt hb, parseUint8_lt hc⟩
        · exact Option.noConfusion h
      · exact Option.noConfusion h

theorem parseUint8_big {l : List Char} (hd : ∀ ch ∈ l, ch.isDigit = true)
    (hbig : 255 < decValue l) : parseUint8 l = none := by
  unfold parseUint8
  split_ifs with h1 h2 h3 <;> first | rfl | omega

theorem recordStrings_ok {l : List DNSRecord} (h : supportedRecords l = true) :
    recordStrings l = .ok (l.map recString) := by
  induction l with
  | nil => rfl
  | cons r rest ih =>
    simp only [supportedRecords, List.all_cons, Bool.and_eq_true] at h
    have hrest := ih (by simp [supportedRecords, h.2])
    cases r with
    | A ip => simp [recordStrings, hrest, recString, Except.map]
    | AAAA ip => simp [recordStrings, hrest, recString, Except.map]
    | CNAME t => simp [recordStrings, hrest, recString, Except.map]
    | other => simp at h

theorem recordStrings_error_nf {l : List DNSRecord} {e : DNSError}
    (h : recordStrings l = .error e) : e.isNotFound = false := by
  induction l with
  | nil => exact absurd h (by simp [recordStrings])
  | cons r rest ih =>
    cases r <;> simp only [recordStrings, Except.map] at h
    case other => cases h; rfl
    all_goals
      cases hrest : recordStrings rest <;> rw [hrest] at h <;> simp_all

theorem queryRecord_error_nf {env : DnsEnv} {h : String} {t : RType} {e : DNSError}
    (he : queryRecord env h t = .error e) : e.isNotFound = false := by
  unfold queryRecord at he
  cases hq : env.query h t <;> rw [hq] at he
  · cases he; rfl
  · exact recordStrings_error_nf he

theorem except_error_bind {α β γ : Type} (e : γ) (f : α → Except γ β) :
    (Except.error e >>= f) = Except.error e := rfl

theorem except_ok_bind {α β γ : Type} (a : α) (f : α → Except γ β) :
    (Except.ok a >>= f) = f a := rfl

theorem cnameFold_error_nf {env : DnsEnv} {maxD gas : Nat}
    (hgas : ∀ h e, resolveAux env maxD gas h = .error e → e.isNotFound = false) :
    ∀ (ts acc : List String) (e : DNSError),
      List.foldlM (fun (acc : List String) (r : String) =>
        match resolveAux env maxD gas r with
        | Except.error e => Except.error (DNSError.cnameWrap r e)
        | Except.ok ips => Except.ok (acc ++ ips)) acc ts = Except.error e →
      e.isNotFound = false := by
  intro ts
  induction ts with
  | nil => intro acc e h; simp [List.foldlM, pure, Except.pure] at h
  | cons t rest ih =>
    intro acc e h
    rw [List.foldlM_cons] at h
    cases hr : resolveAux env maxD gas t <;> rw [hr] at h
    · rw [except_error_bind] at h
      cases h
      simpa [DNSError.isNotFound] using hgas t _ hr
    · rw [except_ok_bind] at h
      exact ih _ e h

theorem resolveAux_error_nf {env : DnsEnv} {maxD : Nat} :
    ∀ (gas : Nat) (h : String) (e : DNSError),
      resolveAux env maxD gas h = .error e → e.isNotFound = false := by
  intro gas
  induction gas with
  | zero => intro h e he; cases he; rfl
  | succ gas ih =>
    intro h e he
    rw [resolveAux] at he
    cases hA : queryRecord env h .A <;> rw [hA] at he
    · cases he
      simpa [DNSError.isNotFound] using queryRecord_error_nf hA
    · cases hB : queryRecord env h .AAAA <;> rw [hB] at he
      · cases he
        simpa [DNSError.isNotFound] using queryRecord_error_nf hB
      · cases hC : queryRecord env h .CNAME <;> rw [hC] at he
        · cases he
          simpa [DNSError.isNotFound] using queryRecord_error_nf hC
        · exact cnameFold_error_nf ih _ _ e he

theorem cnameChain_maxDepth {env : DnsEnv} {maxD : Nat} :
    ∀ (n : Nat) (h : String), cnameChain env h n →
      ∃ e, resolveAux env maxD n h = .error e ∧ e.mentionsMaxDepth = true := by
  intro n
  induction n with
  | zero => intro h _; exact ⟨.maxDepth maxD, rfl, rfl⟩
  | succ n ih =>
    intro h hch
    obtain ⟨⟨a, hA, hasup⟩, ⟨b, hB, hbsup⟩, t, rest, hC, hrsup, hnext⟩ := hch
    obtain ⟨e, he, hm⟩ := ih t hnext
    refine ⟨.cnameWrap t e, ?_, by simpa [DNSError.mentionsMaxDepth] using hm⟩
    rw [resolveAux]
    have hqA : queryRecord env h .A = .ok (a.map recString) := by
      unfold queryRecord; rw [hA]; exact recordStrings_ok hasup
    have hqB : queryRecord env h .AAAA = .ok (b.map recString) := by
      unfold queryRecord; rw [hB]; exact recordStrings_ok hbsup
    have hqC : queryRecord env h .CNAME = .ok (t :: rest.map recString) := by
      unfold queryRecord; rw [hC]
      have hsup : supportedRecords (DNSRecord.CNAME t :: rest) = true := by
        simp_all [supportedRecords]
      simp only [recordStrings_ok hsup, recString, List.map_cons]
    simp only [hqA, hqB, hqC, List.foldlM_cons, he, except_error_bind]

theorem envLoop_chain : ∀ n, cnameChain envLoop "a" n := by
  intro n
  induction n with
  | zero => trivial
  | succ n ih => exact ⟨⟨[], rfl, rfl⟩, ⟨[], rfl, rfl⟩, "a", [], rfl, rfl, ih⟩

@[simp] theorem addWarning_connected (r : RHP4Result) (s : String) :
    (addWarning r s).connected = r.connected := rfl
@[simp] theorem addWarning_handshake (r : RHP4Result) (s : String) :
    (addWarning r s).handshake = r.handshake := rfl
@[simp] theorem addWarning_dialTime (r : RHP4Result) (s : String) :
    (addWarning r s).dialTime = r.dialTime := rfl
@[simp] theorem addWarning_handshakeTime (r : RHP4Result) (s : String) :
    (addWarning r s).handshakeTime = r.handshakeTime := rfl
@[simp] theorem addWarning_scanned (r : RHP4Result) (s : String) :
    (addWarning r s).scanned = r.scanned := rfl
@[simp] theorem addWarning_scanTime (r : RHP4Result) (s : String) :
    (addWarning r s).scanTime = r.scanTime := rfl
@[simp] theorem addWarning_settings (r : RHP4Result) (s : String) :
    (addWarning r s).settings = r.settings := rfl
@[simp] theorem addWarning_errors (r : RHP4Result) (s : String) :
    (addWarning r s).errors = r.errors := rfl
@[simp] theorem addWarning_warnings (r : RHP4Result) (s : String) :
    (addWarning r s).warnings = r.warnings ++ [s] := rfl
@[simp] theorem addError_connected (r : RHP4Result) (s : String) :
    (addError r s).connected = r.connected := rfl
@[simp] theorem addError_handshake (r : RHP4Result) (s : String) :
    (addError r s).handshake = r.handshake := rfl
@[simp] theorem addError_dialTime (r : RHP4Result) (s : String) :
    (addError r s).dialTime = r.dialTime := rfl
@[simp] theorem addError_handshakeTime (r : RHP4Result) (s : String) :
    (addError r s).handshakeTime = r.handshakeTime := rfl
@[simp] theorem addError_scanned (r : RHP4Result) (s : String) :
    (addError r s).scanned = r.scanned := rfl
@[simp] theorem addError_scanTime (r : RHP4Result) (s : String) :
    (addError r s).scanTime = r.scanTime := rfl
@[simp] theorem addError_settings (r : RHP4Result) (s : String) :
    (addError r s).settings = r.settings := rfl
@[simp] theorem addError_warnings (r : RHP4Result) (s : String) :
    (addError r s).warnings = r.warnings := rfl
@[simp] theorem addError_errors (r : RHP4Result) (s : String) :
    (addError r s).errors = r.errors ++ [s] := rfl
@[simp] theorem markScanned_connected (w s r) : (markScanned w s r).connected = r.connected := rfl
@[simp] theorem markScanned_handshake (w s r) : (markScanned w s r).handshake = r.handshake := rfl
@[simp] theorem markScanned_dialTime (w s r) : (markScanned w s r).dialTime = r.dialTime := rfl
@[simp] theorem markScanned_handshakeTime (w s r) :
    (markScanned w s r).handshakeTime = r.handshakeTime := rfl
@[simp] theorem markScanned_scanned (w s r) : (markScanned w s r).scanned = true := rfl
@[simp] theorem markScanned_scanTime (w s r) : (markScanned w s r).scanTime = w.scanTime := rfl
@[simp] theorem markScanned_settings (w s r) : (markScanned w s r).settings = some s := rfl
@[simp] theorem markScanned_errors (w s r) : (markScanned w s r).errors = r.errors := rfl
@[simp] theorem markScanned_warnings (w s r) : (markScanned w s r).warnings = r.warnings := rfl

theorem testRHP4Transport_preserves (w : ProbeWorld) (cv : SemVer) (tipH : Nat)
    (res : RHP4Result) :
    (testRHP4Transport w cv tipH res).connected = res.connected ∧
    (testRHP4Transport w cv tipH res).handshake = res.handshake ∧
    (testRHP4Transport w cv tipH res).dialTime = res.dialTime ∧
    (testRHP4Transport w cv tipH res).handshakeTime = res.handshakeTime := by
  have hval : ∀ (s : HostSettings) (r : RHP4Result),
      (validateRHP4Settings s cv tipH r).connected = r.connected ∧
      (validateRHP4Settings s cv tipH r).handshake = r.handshake ∧
      (validateRHP4Settings s cv tipH r).dialTime = r.dialTime ∧
      (validateRHP4Settings s cv tipH r).handshakeTime = r.handshakeTime := by
    intro s r
    simp only [validateRHP4Settings]
    repeat' split
    all_goals simp
  simp only [testRHP4Transport]
  cases w.settingsResult <;> simp [hval]

/-! ## Claim theorems -/

/-- C1 (code evaluation at the failing input): contrary to the claim that a
failed settings scan leaves `Scanned` false, `Settings` unset and no
validation warnings, whenever `rhp4.RPCSettings` fails `testRHP4Transport`
still marks the probe `Scanned = true`, stores the zero-valued settings, and
appends the five validation warnings the zero value triggers, alongside the
scan error — the source lacks an early return after the failed scan. -/
theorem C1_scan_failure_still_marks_scanned (w : ProbeWorld) (cv : SemVer) (tipH : Nat)
    (res : RHP4Result) (msg : String) (he : w.settingsResult = .error msg) :
    (testRHP4Transport w cv tipH res).scanned = true ∧
    (testRHP4Transport w cv tipH res).settings = some zeroSettings ∧
    (testRHP4Transport w cv tipH res).warnings = res.warnings ++
      ["host is not accepting contracts", "host has no max collateral",
       "host has a max contract duration less than 1 month", "host has no collateral price",
       "host is running an unknown version , which may not be stable"] ∧
    ("failed to get settings: " ++ msg) ∈ (testRHP4Transport w cv tipH res).errors := by
  have hrel : parseReleaseString "" = none := rfl
  simp only [testRHP4Transport, he]
  simp only [validateRHP4Settings, zeroSettings, minContractDuration, hrel]
  norm_num
  split_ifs <;> simp

/-- C1 witness: a concrete probe whose settings RPC fails with
`connection reset` after a successful handshake. -/
theorem C1_witness :
    (testRHP4Transport ⟨.ok (), 0, .ok (), 0, .ok (), 0, .error "connection reset", 7⟩
      ⟨1, 0, 0, []⟩ 5 emptyRHP4Result).scanned = true ∧
    (testRHP4Transport ⟨.ok (), 0, .ok (), 0, .ok (), 0, .error "connection reset", 7⟩
      ⟨1, 0, 0, []⟩ 5 emptyRHP4Result).settings = some zeroSettings ∧
    (testRHP4Transport ⟨.ok (), 0, .ok (), 0, .ok (), 0, .error "connection reset", 7⟩
      ⟨1, 0, 0, []⟩ 5 emptyRHP4Result).warnings = emptyRHP4Result.warnings ++
      ["host is not accepting contracts", "host has no max collateral",
       "host has a max contract duration less than 1 month", "host has no collateral price",
       "host is running an unknown version , which may not be stable"] ∧
    ("failed to get settings: " ++ "connection reset") ∈
      (testRHP4Transport ⟨.ok (), 0, .ok (), 0, .ok (), 0, .error "connection reset", 7⟩
        ⟨1, 0, 0, []⟩ 5 emptyRHP4Result).errors :=
  C1_scan_failure_still_marks_scanned _ _ 5 emptyRHP4Result "connection reset" rfl

/-- C2 (code evaluation): contrary to the claim that a duplicate protocol tag
produces an immediate per-probe error without a dial, the `rhp4Protos` map in
`TestHost` is never written, so the duplicate branch is unreachable: every
slot — including the second of two same-protocol entries — launches a probe
and none records a `duplicate protocol` error. -/
theorem C2_duplicate_check_inoperative :
    (∀ addrs : List NetAddress, rhp4SlotActions addrs = addrs.map (fun _ => SlotAction.probe)) ∧
    rhp4SlotActions [⟨"host1.example:9984", "siamux"⟩, ⟨"host2.example:9984", "siamux"⟩] =
      [SlotAction.probe, SlotAction.probe] := by
  have hall : ∀ addrs : List NetAddress,
      rhp4SlotActions addrs = addrs.map (fun _ => SlotAction.probe) := by
    intro addrs
    unfold rhp4SlotActions
    induction addrs with
    | nil => rfl
    | cons a rest ih => simp [rhp4SlotLoop, ih]
  exact ⟨hall, hall _⟩

/-- C3 counterexample: `Cmp` is not a strict total order on parsed versions —
`v1.0.0-alpha` and `v1.0.0-beta` both parse, are distinct, yet compare equal
in both directions (their signs are not opposite). -/
theorem C3_counterexample :
    SemVer.unmarshalText "v1.0.0-alpha".toList = some ⟨1, 0, 0, "alpha".toList⟩ ∧
    SemVer.unmarshalText "v1.0.0-beta".toList = some ⟨1, 0, 0, "beta".toList⟩ ∧
    (⟨1, 0, 0, "alpha".toList⟩ : SemVer) ≠ ⟨1, 0, 0, "beta".toList⟩ ∧
    SemVer.Cmp ⟨1, 0, 0, "alpha".toList⟩ ⟨1, 0, 0, "beta".toList⟩ = 0 ∧
    SemVer.Cmp ⟨1, 0, 0, "beta".toList⟩ ⟨1, 0, 0, "alpha".toList⟩ = 0 :=
  ⟨by decide, by decide, by decide, by decide, by decide⟩

/-- C3 (amended): `Cmp` is a total preorder consistent with component-wise
numeric comparison before the suffix-presence tie-break — `Cmp a b` is always
the negation of `Cmp b a`, strict comparison and equivalence are transitive,
`Cmp a b < 0` holds exactly on the lexicographic key order, and `Cmp a b = 0`
holds exactly when the numeric components and suffix-presence agree — but it
is not antisymmetric on values: versions differing only in the text of a
non-empty suffix compare equal (see the counterexample). -/
theorem C3_cmp_total_preorder :
    (∀ a b : SemVer, SemVer.Cmp a b = -SemVer.Cmp b a) ∧
    (∀ a b c : SemVer, SemVer.Cmp a b < 0 → SemVer.Cmp b c < 0 → SemVer.Cmp a c < 0) ∧
    (∀ a b c : SemVer, SemVer.Cmp a b = 0 → SemVer.Cmp b c = 0 → SemVer.Cmp a c = 0) ∧
    (∀ a b : SemVer, SemVer.Cmp a b < 0 ↔ versionKeyLt a b) ∧
    (∀ a b : SemVer, SemVer.Cmp a b = 0 ↔
      (a.major = b.major ∧ a.minor = b.minor ∧ a.patch = b.patch ∧
        suffixRank a = suffixRank b)) :=
  ⟨cmp_antisymm, cmp_trans_lt, cmp_trans_eq, cmp_lt_iff, cmp_eq_iff⟩

/-- C3 witness: the transitivity components applied at concrete versions. -/
theorem C3_witness :
    SemVer.Cmp ⟨1, 0, 0, []⟩ ⟨1, 2, 0, []⟩ < 0 ∧
    SemVer.Cmp ⟨1, 0, 0, "a".toList⟩ ⟨1, 0, 0, "b".toList⟩ = 0 :=
  ⟨C3_cmp_total_preorder.2.1 ⟨1, 0, 0, []⟩ ⟨1, 1, 0, []⟩ ⟨1, 2, 0, []⟩ (by decide) (by decide),
   C3_cmp_total_preorder.2.2.1 ⟨1, 0, 0, "a".toList⟩ ⟨1, 0, 0, "c".toList⟩
     ⟨1, 0, 0, "b".toList⟩ (by decide) (by decide)⟩

/-- C4: for every string the parser accepts, formatting the parsed value and
parsing again gives back exactly the first parse (round-trip). -/
theorem C4_parse_format_roundtrip (s : List Char) (v : SemVer)
    (h : SemVer.unmarshalText s = some v) :
    SemVer.unmarshalText (SemVer.toText v) = SemVer.unmarshalText s := by
  obtain ⟨h1, h2, h3⟩ := unmarshalText_bounds h
  rw [h, unmarshal_toText v h1 h2 h3]

/-- C4 witness: the round-trip at `v1.2.3-beta`. -/
theorem C4_witness :
    SemVer.unmarshalText (SemVer.toText ⟨1, 2, 3, "beta".toList⟩) =
      SemVer.unmarshalText "v1.2.3-beta".toList :=
  C4_parse_format_roundtrip "v1.2.3-beta".toList ⟨1, 2, 3, "beta".toList⟩ (by decide)

/-- C5: a `TestHost` call finding the key off cooldown proceeds (`none`
error) and sets the expiry to `now + 15s`; a second call for the same key
before that expiry fails with the remaining wait, which is positive and at
most the configured window. -/
theorem C5_cooldown_window (m : CooldownMap) (pk : HostKey) (t0 t1 : Int)
    (h0 : m.expiry pk ≤ t0) (h01 : t0 ≤ t1) (h1 : t1 < t0 + cooldownWindow) :
    (checkCooldown m t0 pk).2 = none ∧
    ((checkCooldown m t0 pk).1).expiry pk = t0 + cooldownWindow ∧
    (checkCooldown (checkCooldown m t0 pk).1 t1 pk).2 = some (t0 + cooldownWindow - t1) ∧
    0 < t0 + cooldownWindow - t1 ∧ t0 + cooldownWindow - t1 ≤ cooldownWindow := by
  have hc1 : ¬(m.expiry pk - t0 > 0) := by omega
  have hfirst : checkCooldown m t0 pk =
      (⟨fun k => if k = pk then t0 + cooldownWindow else m.expiry k⟩, none) := by
    rw [checkCooldown, if_neg hc1]
  rw [hfirst]
  refine ⟨rfl, by simp, ?_, ?_, ?_⟩
  · have hexp : ((⟨fun k => if k = pk then t0 + cooldownWindow else m.expiry k⟩ :
        CooldownMap).expiry pk) = t0 + cooldownWindow := by simp
    have hc2 : ((⟨fun k => if k = pk then t0 + cooldownWindow else m.expiry k⟩ :
        CooldownMap).expiry pk - t1 > 0) := by
      rw [hexp]
      unfold cooldownWindow at h1 ⊢
      omega
    rw [checkCooldown, if_pos hc2, hexp]
  · unfold cooldownWindow at h1 ⊢
    omega
  · unfold cooldownWindow at h1 ⊢
    omega

/-- C5 witness: key 0 tested at time 0 and again at time 5 with an initially
empty cooldown map. -/
theorem C5_witness :
    (checkCooldown ⟨fun _ => 0⟩ 0 0).2 = none ∧
    ((checkCooldown ⟨fun _ => 0⟩ 0 0).1).expiry 0 = 0 + cooldownWindow ∧
    (checkCooldown (checkCooldown ⟨fun _ => 0⟩ 0 0).1 5 0).2 = some (0 + cooldownWindow - 5) ∧
    (0 : Int) < 0 + cooldownWindow - 5 ∧ 0 + cooldownWindow - 5 ≤ cooldownWindow :=
  C5_cooldown_window ⟨fun _ => 0⟩ 0 0 5 (by decide) (by decide) (by decide)

/-- C6: on a hostname that is not an IP literal and whose CNAME chain is
longer than the fixed bound (maxDepth = 3), `LookupIP` returns an error whose
message chain contains the `maximum CNAME resolution depth reached` text; the
recursion is total by construction (`resolveAux` is structurally recursive on
the remaining depth budget). -/
theorem C6_cname_depth_bound (env : DnsEnv) (hostname : String)
    (hip : parseIP hostname = none) (hch : cnameChain env hostname 4) :
    ∃ e, LookupIP env hostname = .error e ∧ e.mentionsMaxDepth = true := by
  obtain ⟨e, he, hm⟩ := @cnameChain_maxDepth env 3 4 hostname hch
  refine ⟨e, ?_, hm⟩
  unfold LookupIP resolve
  rw [hip]
  have h4 : 3 + 1 - 0 = 4 := rfl
  rw [h4, he]

/-- C6 witness: the environment in which `a` CNAMEs to itself. -/
theorem C6_witness : ∃ e, LookupIP envLoop "a" = .error e ∧ e.mentionsMaxDepth = true :=
  C6_cname_depth_bound envLoop "a" (by rfl) (envLoop_chain 4)

/-- C7: for a non-literal hostname, when resolution succeeds with an empty
union of records `LookupIP` fails with the distinguished `ErrNotFound` value,
whereas when resolution fails the error is passed through and is never
`ErrNotFound` (so `errors.Is(err, ErrNotFound)` distinguishes the two). -/
theorem C7_notFound_distinguished (env : DnsEnv) (hostname : String)
    (hip : parseIP hostname = none) :
    (resolve env hostname 0 3 = .ok [] → LookupIP env hostname = .error DNSError.notFound) ∧
    (∀ e, resolve env hostname 0 3 = .error e →
      LookupIP env hostname = .error e ∧ e.isNotFound = false) ∧
    DNSError.notFound.isNotFound = true := by
  refine ⟨?_, ?_, rfl⟩
  · intro hok
    unfold LookupIP
    rw [hip, hok]
    rfl
  · intro e he
    have he' : resolveAux env 3 4 hostname = .error e := he
    refine ⟨?_, resolveAux_error_nf 4 hostname e he'⟩
    unfold LookupIP
    rw [hip, he]

/-- C7 witness: the all-empty-answers environment yields `ErrNotFound` for a
non-literal hostname. -/
theorem C7_witness : LookupIP envEmpty "a" = .error DNSError.notFound :=
  (C7_notFound_distinguished envEmpty "a" (by rfl)).1 (by rfl)

/-- C8: parsing never yields a component above 255 (no truncation), and a
version string of the valid shape whose digit components encode a value above
255 is rejected outright. -/
theorem C8_overflow_rejected :
    (∀ (s : List Char) (v : SemVer), SemVer.unmarshalText s = some v →
      v.major ≤ 255 ∧ v.minor ≤ 255 ∧ v.patch ≤ 255) ∧
    (∀ (d1 d2 d3 tail : List Char),
      (∀ ch ∈ d1, ch.isDigit = true) → (∀ ch ∈ d2, ch.isDigit = true) →
      (∀ ch ∈ d3, ch.isDigit = true) →
      (tail = [] ∨ ∃ sfx, tail = '-' :: sfx) →
      (255 < decValue d1 ∨ 255 < decValue d2 ∨ 255 < decValue d3) →
      SemVer.unmarshalText ('v' :: (d1 ++ '.' :: (d2 ++ '.' :: (d3 ++ tail)))) = none) := by
  constructor
  · intro s v h
    obtain ⟨h1, h2, h3⟩ := unmarshalText_bounds h
    omega
  · intro d1 d2 d3 tail hd1 hd2 hd3 htail hbig
    have nd1 : '-' ∉ d1 := fun hm => absurd (hd1 _ hm) (by decide)
    have nd2 : '-' ∉ d2 := fun hm => absurd (hd2 _ hm) (by decide)
    have nd3 : '-' ∉ d3 := fun hm => absurd (hd3 _ hm) (by decide)
    have hnd : '-' ∉ d1 ++ '.' :: (d2 ++ '.' :: d3) := by
      simp only [List.mem_append, List.mem_cons, not_or]
      exact ⟨nd1, by decide, nd2, by decide, nd3⟩
    have hdot1 : '.' ∉ d1 := fun hm => absurd (hd1 _ hm) (by decide)
    have hdot2 : '.' ∉ d2 := fun hm => absurd (hd2 _ hm) (by decide)
    have hdot3 : '.' ∉ d3 := fun hm => absurd (hd3 _ hm) (by decide)
    have hsplit : splitDots (d1 ++ '.' :: (d2 ++ '.' :: d3)) = [d1, d2, d3] := by
      rw [splitDots_append _ hdot1, splitDots_append _ hdot2, splitDots_no_dot hdot3]
    have hnone : parseUint8 d1 = none ∨ parseUint8 d2 = none ∨ parseUint8 d3 = none := by
      rcases hbig with hb | hb | hb
      · exact Or.inl (parseUint8_big hd1 hb)
      · exact Or.inr (Or.inl (parseUint8_big hd2 hb))
      · exact Or.inr (Or.inr (parseUint8_big hd3 hb))
    rw [SemVer.unmarshalText, if_neg (fun hh => hh rfl)]
    rcases htail with rfl | ⟨sfx, rfl⟩
    · simp only [List.append_nil]
      rw [breakDash_no_dash hnd, hsplit]
      cases hh1 : parseUint8 d1 <;> cases hh2 : parseUint8 d2 <;> cases hh3 : parseUint8 d3 <;>
        simp_all
    · have harr : d1 ++ '.' :: (d2 ++ '.' :: (d3 ++ '-' :: sfx)) =
          (d1 ++ '.' :: (d2 ++ '.' :: d3)) ++ '-' :: sfx := by
        simp [List.append_assoc]
      rw [harr, breakDash_dash _ hnd, hsplit]
      cases hh1 : parseUint8 d1 <;> cases hh2 : parseUint8 d2 <;> cases hh3 : parseUint8 d3 <;>
        simp_all

/-- C8 witness: `v256.0.0` is rejected rather than truncated to `v0.0.0`. -/
theorem C8_witness :
    SemVer.unmarshalText ('v' :: (['2', '5', '6'] ++ '.' :: (['0'] ++ '.' :: (['0'] ++ [])))) =
      none :=
  C8_overflow_rejected.2 ['2', '5', '6'] ['0'] ['0'] [] (by decide) (by decide) (by decide)
    (Or.inl rfl) (Or.inl (by decide))

/-- C9: a successful QUIC probe reports `Connected = true` and
`Handshake = true`, records only the handshake duration, and never writes
`DialTime`, which keeps its initial zero value. -/
theorem C9_quic_never_sets_dial_time (w : ProbeWorld) (cv : SemVer) (tipH : Nat)
    (addr : NetAddress) (res : RHP4Result) (hq : w.quicResult = .ok ())
    (hd : res.dialTime = 0) :
    (testRHP4Quic w cv tipH addr res).connected = true ∧
    (testRHP4Quic w cv tipH addr res).handshake = true ∧
    (testRHP4Quic w cv tipH addr res).dialTime = 0 ∧
    (testRHP4Quic w cv tipH addr res).handshakeTime = w.quicTime := by
  obtain ⟨hc, hh, hdt, hht⟩ := testRHP4Transport_preserves w cv tipH
    { res with handshakeTime := w.quicTime, connected := true, handshake := true }
  simp only [testRHP4Quic, hq]
  exact ⟨by rw [hc], by rw [hh], by rw [hdt]; exact hd, by rw [hht]⟩

/-- C9 witness: a concrete successful QUIC probe from a zero-valued slot. -/
theorem C9_witness :
    (testRHP4Quic ⟨.ok (), 0, .ok (), 0, .ok (), 9, .ok zeroSettings, 7⟩
      ⟨1, 0, 0, []⟩ 5 ⟨"host1.example:9984", "quic"⟩ emptyRHP4Result).connected = true ∧
    (testRHP4Quic ⟨.ok (), 0, .ok (), 0, .ok (), 9, .ok zeroSettings, 7⟩
      ⟨1, 0, 0, []⟩ 5 ⟨"host1.example:9984", "quic"⟩ emptyRHP4Result).handshake = true ∧
    (testRHP4Quic ⟨.ok (), 0, .ok (), 0, .ok (), 9, .ok zeroSettings, 7⟩
      ⟨1, 0, 0, []⟩ 5 ⟨"host1.example:9984", "quic"⟩ emptyRHP4Result).dialTime = 0 ∧
    (testRHP4Quic ⟨.ok (), 0, .ok (), 0, .ok (), 9, .ok zeroSettings, 7⟩
      ⟨1, 0, 0, []⟩ 5 ⟨"host1.example:9984", "quic"⟩ emptyRHP4Result).handshakeTime = 9 :=
  C9_quic_never_sets_dial_time _ _ 5 _ emptyRHP4Result rfl rfl

/-- C10: a `TestHost` call rejected by the cooldown check leaves the manager
state untouched — the map, and in particular the expiry of the rejected key,
are returned unchanged, and a further rejected call still leaves the original
map — so rejected calls never extend the cooldown. -/
theorem C10_rejection_leaves_state (m : CooldownMap) (now : Int) (pk : HostKey)
    (h : m.expiry pk - now > 0) :
    (checkCooldown m now pk).1 = m ∧
    (checkCooldown m now pk).2 = some (m.expiry pk - now) ∧
    (∀ now2, m.expiry pk - now2 > 0 →
      (checkCooldown (checkCooldown m now pk).1 now2 pk).1 = m) := by
  have hh : checkCooldown m now pk = (m, some (m.expiry pk - now)) := by
    rw [checkCooldown, if_pos h]
  refine ⟨by rw [hh], by rw [hh], ?_⟩
  intro now2 h2
  rw [hh]
  show (checkCooldown m now2 pk).1 = m
  rw [checkCooldown, if_pos h2]

/-- C10 witness: key 0 on cooldown until time 20, rejected at time 10. -/
theorem C10_witness :
    (checkCooldown ⟨fun _ => 20⟩ 10 0).1 = ⟨fun _ => 20⟩ ∧
    (checkCooldown ⟨fun _ => 20⟩ 10 0).2 =
      some ((⟨fun _ => 20⟩ : CooldownMap).expiry 0 - 10) ∧
    (∀ now2, (⟨fun _ => 20⟩ : CooldownMap).expiry 0 - now2 > 0 →
      (checkCooldown (checkCooldown ⟨fun _ => 20⟩ 10 0).1 now2 0).1 = ⟨fun _ => 20⟩) :=
  C10_rejection_leaves_state ⟨fun _ => 20⟩ 10 0 (by decide)
